import Mathlib

/-!
Verification of the VibeBench-Mini scoring and aggregation engine
(`runner/vibebench_runner.py` and `runner/vibebench_runner_v1.py`).

The runner's numeric values are modelled over `ℚ`.  Python's `round(x, 3)`
(round to three decimal places, ties to even) is modelled by `round3`, built
from a half-even rounding to the nearest integer `rndHalfEven`.
-/

namespace VibeBench

/-- Round a rational to the nearest integer, ties to even — the rounding mode
of Python's built-in `round`. -/
def rndHalfEven (q : ℚ) : ℤ :=
  if 2 * q.num.fmod q.den < (q.den : ℤ) then q.num.fdiv q.den
  else if (q.den : ℤ) < 2 * q.num.fmod q.den then q.num.fdiv q.den + 1
  else if q.num.fdiv q.den % 2 = 0 then q.num.fdiv q.den else q.num.fdiv q.den + 1

/-- Python's `round(q, 3)`. -/
def round3 (q : ℚ) : ℚ := ((rndHalfEven (q * 1000) : ℤ) : ℚ) / 1000

/-! ## Embedding of `junit_results`

The XML parse either fails (caught `except`, leaving all counters zero —
modelled by the empty suite list) or yields the `<testsuite>` elements, each
carrying `tests`, `failures` and `errors` attributes.  The Python loop adds the
attributes into running sums and recomputes `passed = max(0, total - failed -
errors)` on every iteration. -/

structure Suite where
  tests : ℕ
  failures : ℕ
  errors : ℕ
deriving Repr, DecidableEq

structure JUnitCounts where
  total : ℕ
  passed : ℕ
  failed : ℕ
  errors : ℕ
deriving Repr, DecidableEq

def junitStep (acc : JUnitCounts) (ts : Suite) : JUnitCounts :=
  let T := acc.total + ts.tests
  let F := acc.failed + ts.failures
  let E := acc.errors + ts.errors
  { total := T, passed := ((T : ℤ) - (F : ℤ) - (E : ℤ)).toNat, failed := F, errors := E }

def junit_results (suites : List Suite) : JUnitCounts :=
  suites.foldl junitStep ⟨0, 0, 0, 0⟩

/-- Correctness normalization from `evaluate_task`:
`round(passed/total, 3) if total else 0.0`. -/
def correctness_score (passed total : ℕ) : ℚ :=
  if total = 0 then 0 else round3 ((passed : ℚ) / (total : ℚ))

/-! ## Embedding of the four tool adapters -/

/-- The complexity normalization formula of `radon_complexity_score`:
`1.0 if avg <= 5 else (0.0 if avg >= 15 else 1 - (avg - 5)/10)`. -/
def cc_formula (avg : ℚ) : ℚ :=
  if avg ≤ 5 then 1 else if 15 ≤ avg then 0 else 1 - (avg - 5) / 10

/-- `radon_complexity_score`.  `available` is the truthiness of the optional
`cc_visit` import; `fileVals` gives, per discovered `.py` file, the block
complexities `cc_visit` returns for it (a file whose read or parse raises is
skipped by the inner `except`, contributing `[]`).  Returns the raw average and
the normalized score, both rounded to three decimals, or `(None, None)`. -/
def radon_complexity_score (available : Bool) (fileVals : List (List ℚ)) :
    Option ℚ × Option ℚ :=
  if available = false ∨ fileVals = [] then (none, none)
  else
    let vals := fileVals.flatten
    if vals = [] then (none, none)
    else
      let avg := vals.sum / (vals.length : ℚ)
      (some (round3 avg), some (round3 (cc_formula avg)))

/-- The lint/security normalization formula: `max(0, 1 - min(n, 20)/20)`. -/
def lint_formula (n : ℕ) : ℚ := max 0 (1 - ((min n 20 : ℕ) : ℚ) / 20)

/-- `flake8_issues`: `None` when the optional `flake8` import failed, else the
issue count reported by the style guide and its normalized score. -/
def flake8_issues (available : Bool) (n : ℕ) : Option ℕ × Option ℚ :=
  if available = false then (none, none)
  else (some n, some (round3 (lint_formula n)))

/-- Outcome of invoking an external binary through `run`: the binary may be
absent (in which case `subprocess.run` raises `FileNotFoundError`), or it
produces output which the adapter either parses to a count or fails to parse
(the `except` branch setting `n = None`). -/
inductive ToolOutcome where
  | missing
  | output (parsed : Option ℕ)
deriving Repr, DecidableEq

/-- Python exceptions that can escape the adapters. -/
inductive PyErr where
  | fileNotFound
deriving Repr, DecidableEq

/-- `bandit_issues`: calls `run(["bandit", ...])` with no `try` around the
subprocess call, so a missing binary raises; a parse failure yields
`(None, None)`; a parsed count is normalized by the lint formula. -/
def bandit_issues (tool : ToolOutcome) : Except PyErr (Option ℕ × Option ℚ) :=
  match tool with
  | .missing => .error .fileNotFound
  | .output none => .ok (none, none)
  | .output (some n) => .ok (some n, some (round3 (lint_formula n)))

/-- The dependency normalization formula: `max(0, 1 - min(n, 10)/10)`. -/
def dep_formula (n : ℕ) : ℚ := max 0 (1 - ((min n 10 : ℕ) : ℚ) / 10)

/-- `pip_audit`: returns `(None, None)` immediately when the requirements
manifest does not exist; otherwise invokes `pip-audit` (raising when the binary
is absent), yielding `(None, None)` on parse failure and the vulnerability
count with its normalized score on success. -/
def pip_audit (manifestExists : Bool) (tool : ToolOutcome) :
    Except PyErr (Option ℕ × Option ℚ) :=
  if manifestExists = false then .ok (none, none)
  else
    match tool with
    | .missing => .error .fileNotFound
    | .output none => .ok (none, none)
    | .output (some n) => .ok (some n, some (round3 (dep_formula n)))

/-! ## Embedding of `discover_tasks`

In the source, only the lines
`meta = {...}` and `mf = p / "task.yaml"` are under `if p.is_dir():`; the
manifest check and `tasks.append(meta)` sit at loop-body level.  A
non-directory entry therefore re-appends the previous directory's metadata,
and raises `NameError` when no directory has been seen yet. -/

inductive ManifestFile where
  | absentFile
  | malformed
  | parsed (title : Option String)
deriving Repr, DecidableEq

structure TaskMeta where
  id : String
  title : Option String
deriving Repr, DecidableEq

structure Entry where
  name : String
  isDir : Bool
  manifest : ManifestFile
deriving Repr, DecidableEq

/-- Effect of `if mf.exists(): try: meta.update(yaml.safe_load(...)) except: pass`. -/
def applyManifest (meta : TaskMeta) : ManifestFile → TaskMeta
  | .absentFile => meta
  | .malformed => meta
  | .parsed none => meta
  | .parsed (some t) => { meta with title := some t }

/-- `NameError`: `mf`/`meta` referenced before any directory assigned them. -/
inductive DiscoverErr where
  | nameError
deriving Repr, DecidableEq

/-- Lexicographic comparison of strings by code point — the order Python uses
when sorting the `Path` entries. -/
def charListLe : List Char → List Char → Bool
  | [], _ => true
  | _ :: _, [] => false
  | a :: as, b :: bs =>
    if a.val < b.val then true
    else if b.val < a.val then false
    else charListLe as bs

def nameLe (s t : String) : Bool := charListLe s.data t.data

def insertEntry (e : Entry) : List Entry → List Entry
  | [] => [e]
  | x :: xs => if nameLe e.name x.name then e :: x :: xs else x :: insertEntry e xs

/-- `sorted(Path(root).glob("*"))`: entries in lexicographic order by name. -/
def sortEntries : List Entry → List Entry
  | [] => []
  | e :: es => insertEntry e (sortEntries es)

def discoverGo : List Entry → Option (TaskMeta × ManifestFile) →
    Except DiscoverErr (List TaskMeta)
  | [], _ => .ok []
  | e :: rest, st =>
    let st1 := if e.isDir then some ({ id := e.name, title := none }, e.manifest) else st
    match st1 with
    | none => .error .nameError
    | some (meta, mf) =>
      let meta1 := applyManifest meta mf
      match discoverGo rest (some (meta1, mf)) with
      | .error er => .error er
      | .ok ts => .ok (meta1 :: ts)

def discover_tasks (entries : List Entry) : Except DiscoverErr (List TaskMeta) :=
  discoverGo (sortEntries entries) none

/-! ## Embedding of `evaluate_task` and the aggregate -/

/-- The list `subs` after the `isinstance(x, float)` filter: the correctness
score is always a float, the other four sub-scores are floats exactly when not
`None`. -/
def subsList (c : ℚ) (cc l s d : Option ℚ) : List ℚ :=
  ([some c, cc, l, s, d] : List (Option ℚ)).filterMap id

/-- `res["aggregate_score"] = round(sum(subs)/len(subs), 3) if subs else 0.0`. -/
def aggregate_score (c : ℚ) (cc l s d : Option ℚ) : ℚ :=
  let subs := subsList c cc l s d
  if subs = [] then 0 else round3 (subs.sum / (subs.length : ℚ))

/-- The value stored under the `"id"` key of a task's result: the source
writes `res = {"id": task, ...}`, storing the whole metadata dict, while the
spec calls for the id string. -/
inductive IdVal where
  | ofMeta (m : TaskMeta)
  | ofStr (s : String)
deriving Repr, DecidableEq

/-- Raw outputs of the external tools for one task, consumed by
`evaluate_task`. -/
structure CheckerEnv where
  junitSuites : List Suite
  radonAvailable : Bool
  radonFileVals : List (List ℚ)
  flakeAvailable : Bool
  flakeCount : ℕ
  banditTool : ToolOutcome
  depManifestExists : Bool
  pipTool : ToolOutcome

structure TaskRecord where
  idField : IdVal
  title : String
  testsTotal : ℕ
  testsPassed : ℕ
  correctness : ℚ
  complexityAvg : Option ℚ
  complexityScore : Option ℚ
  lintIssues : Option ℕ
  lintScore : Option ℚ
  securityIssues : Option ℕ
  securityScore : Option ℚ
  depVulns : Option ℕ
  depScore : Option ℚ
  aggregate : ℚ
deriving Repr, DecidableEq

def evaluate_task (task : TaskMeta) (env : CheckerEnv) : Except PyErr TaskRecord :=
  let jt := junit_results env.junitSuites
  let corr := correctness_score jt.passed jt.total
  let ccPair := radon_complexity_score env.radonAvailable env.radonFileVals
  let lintPair := flake8_issues env.flakeAvailable env.flakeCount
  match bandit_issues env.banditTool with
  | .error er => .error er
  | .ok secPair =>
    match pip_audit env.depManifestExists env.pipTool with
    | .error er => .error er
    | .ok depPair =>
      .ok
        { idField := .ofMeta task
          title := task.title.getD task.id
          testsTotal := jt.total
          testsPassed := jt.passed
          correctness := corr
          complexityAvg := ccPair.1
          complexityScore := ccPair.2
          lintIssues := lintPair.1
          lintScore := lintPair.2
          securityIssues := secPair.1
          securityScore := secPair.2
          depVulns := depPair.1
          depScore := depPair.2
          aggregate := aggregate_score corr ccPair.2 lintPair.2 secPair.2 depPair.2 }

/-! ## Embedding of the v1 runner's additions -/

/-- `mutation_score` of `vibebench_runner_v1.py`: absent `mutmut` yields all
`None`; a failing `mutmut results` call yields all `None`; zero parsed
mutants yields `(0, 0, None)`; otherwise killed, total and the rounded
ratio. -/
def mutation_score (mutmutAvailable : Bool) (resultsExit : ℤ)
    (survived killed tmo suspicious : ℕ) : Option ℕ × Option ℕ × Option ℚ :=
  if mutmutAvailable = false then (none, none, none)
  else if resultsExit ≠ 0 then (none, none, none)
  else
    let total := survived + killed + tmo + suspicious
    if total = 0 then (some 0, some 0, none)
    else (some killed, some total, some (round3 ((killed : ℚ) / (total : ℚ))))

structure TaskRecordV1 where
  idField : IdVal
  title : String
  correctness : ℚ
  complexityScore : Option ℚ
  lintScore : Option ℚ
  securityScore : Option ℚ
  depScore : Option ℚ
  mutKilled : Option ℕ
  mutTotal : Option ℕ
  mutationScore : Option ℚ
  aggregate : ℚ
deriving Repr, DecidableEq

/-- `evaluate_task` of `vibebench_runner_v1.py`: identical checker pipeline,
plus mutation testing; the `subscores` list that appends the mutation score is
built and discarded, and `subs` (hence `aggregate_score`) is computed exactly
as in the base runner. -/
def evaluate_task_v1 (task : TaskMeta) (env : CheckerEnv)
    (mutmutAvailable : Bool) (mutExit : ℤ)
    (survived killed tmo suspicious : ℕ) : Except PyErr TaskRecordV1 :=
  let jt := junit_results env.junitSuites
  let corr := correctness_score jt.passed jt.total
  let ccPair := radon_complexity_score env.radonAvailable env.radonFileVals
  let lintPair := flake8_issues env.flakeAvailable env.flakeCount
  match bandit_issues env.banditTool with
  | .error er => .error er
  | .ok secPair =>
    match pip_audit env.depManifestExists env.pipTool with
    | .error er => .error er
    | .ok depPair =>
      let mut3 := mutation_score mutmutAvailable mutExit survived killed tmo suspicious
      let _subscores :=
        subsList corr ccPair.2 lintPair.2 secPair.2 depPair.2 ++
          (match mut3.2.2 with | some m => [m] | none => [])
      .ok
        { idField := .ofMeta task
          title := task.title.getD task.id
          correctness := corr
          complexityScore := ccPair.2
          lintScore := lintPair.2
          securityScore := secPair.2
          depScore := depPair.2
          mutKilled := mut3.1
          mutTotal := mut3.2.1
          mutationScore := mut3.2.2
          aggregate := aggregate_score corr ccPair.2 lintPair.2 secPair.2 depPair.2 }

/-! ## Run-level aggregation -/

/-- `round(sum(r["aggregate_score"] for r in results) / max(1, len(results)), 3)`. -/
def mean_score (aggs : List ℚ) : ℚ :=
  round3 (aggs.sum / ((max 1 aggs.length : ℕ) : ℚ))

/-- The run-level summary `{"mean_score": ..., "num_tasks": ...}`. -/
def run_summary (aggs : List ℚ) : ℚ × ℕ :=
  (mean_score aggs, aggs.length)

/-- The `num`/`den` accumulation loop of `weighted_aggregate` in
`vibebench_runner_v1.py`; a row value of `None` (or the CSV empty string) is
modelled as `none`. -/
def accumWeights (row : String → Option ℚ) (weights : List (String × ℚ))
    (missing : String) : ℚ × ℚ :=
  weights.foldl
    (fun acc kw =>
      match row kw.1 with
      | none => if missing = "zero" then (acc.1, acc.2 + kw.2) else acc
      | some v => (acc.1 + v * kw.2, acc.2 + kw.2))
    (0, 0)

/-- `weighted_aggregate`: `0.0 if den == 0 else num / den`. -/
def weighted_aggregate (row : String → Option ℚ) (weights : List (String × ℚ))
    (missing : String) : ℚ :=
  let a := accumWeights row weights missing
  if a.2 = 0 then 0 else a.1 / a.2

/-- A checker environment in which every optional tool is absent or silent in
the non-throwing way: no junit report, no radon or flake8 import, bandit
present but unparseable, no dependency manifest. -/
def envToolsSilent : CheckerEnv :=
  { junitSuites := []
    radonAvailable := false
    radonFileVals := []
    flakeAvailable := false
    flakeCount := 0
    banditTool := .output none
    depManifestExists := false
    pipTool := .output none }

/-! ## Spec-side reformulations used to state amended claims -/

/-- Spec-side sum of the non-null optional sub-scores. -/
def presentScoreSum (cc l s d : Option ℚ) : ℚ :=
  cc.getD 0 + l.getD 0 + s.getD 0 + d.getD 0

/-- Spec-side count of the non-null optional sub-scores. -/
def presentScoreCount (cc l s d : Option ℚ) : ℕ :=
  (if cc.isSome then 1 else 0) + (if l.isSome then 1 else 0) +
    (if s.isSome then 1 else 0) + (if d.isSome then 1 else 0)

/-! ## Properties of the rounding model -/

lemma den_posZ (q : ℚ) : (0 : ℤ) < (q.den : ℤ) := by
  exact_mod_cast q.den_pos

lemma fdiv_fmod_eq (q : ℚ) :
    (q.den : ℤ) * q.num.fdiv q.den + q.num.fmod q.den = q.num :=
  Int.fdiv_add_fmod q.num q.den

lemma fmod_nonneg_q (q : ℚ) : 0 ≤ q.num.fmod q.den :=
  Int.fmod_nonneg' q.num (den_posZ q)

lemma fmod_lt_q (q : ℚ) : q.num.fmod q.den < (q.den : ℤ) :=
  Int.fmod_lt_of_pos q.num (den_posZ q)

lemma fdiv_cast_le (q : ℚ) : ((q.num.fdiv q.den : ℤ) : ℚ) ≤ q := by
  have hd : (0 : ℚ) < (q.den : ℚ) := by exact_mod_cast q.den_pos
  have h1 : (q.den : ℤ) * q.num.fdiv q.den ≤ q.num := by
    have := fmod_nonneg_q q
    have := fdiv_fmod_eq q
    omega
  have h2 : ((q.num.fdiv q.den : ℤ) : ℚ) * (q.den : ℚ) ≤ (q.num : ℚ) := by
    calc ((q.num.fdiv q.den : ℤ) : ℚ) * (q.den : ℚ)
        = (((q.den : ℤ) * q.num.fdiv q.den : ℤ) : ℚ) := by push_cast; ring
      _ ≤ (q.num : ℚ) := by exact_mod_cast h1
  have h3 : ((q.num.fdiv q.den : ℤ) : ℚ) ≤ (q.num : ℚ) / (q.den : ℚ) :=
    (le_div_iff₀ hd).mpr h2
  simpa [Rat.num_div_den] using h3

lemma fdiv_cast_lt (q : ℚ) (h : 0 < q.num.fmod q.den) :
    ((q.num.fdiv q.den : ℤ) : ℚ) < q := by
  have hd : (0 : ℚ) < (q.den : ℚ) := by exact_mod_cast q.den_pos
  have h1 : (q.den : ℤ) * q.num.fdiv q.den < q.num := by
    have := fdiv_fmod_eq q
    omega
  have h2 : ((q.num.fdiv q.den : ℤ) : ℚ) * (q.den : ℚ) < (q.num : ℚ) := by
    calc ((q.num.fdiv q.den : ℤ) : ℚ) * (q.den : ℚ)
        = (((q.den : ℤ) * q.num.fdiv q.den : ℤ) : ℚ) := by push_cast; ring
      _ < (q.num : ℚ) := by exact_mod_cast h1
  have h3 : ((q.num.fdiv q.den : ℤ) : ℚ) < (q.num : ℚ) / (q.den : ℚ) :=
    (lt_div_iff₀ hd).mpr h2
  simpa [Rat.num_div_den] using h3

lemma rndHalfEven_intCast (m : ℤ) : rndHalfEven (m : ℚ) = m := by
  have h1 : ((m : ℚ)).num = m := Rat.num_intCast m
  have h2 : ((m : ℚ)).den = 1 := Rat.den_intCast m
  simp [rndHalfEven, h1, h2, Int.fmod_one]

lemma rndHalfEven_nonneg {q : ℚ} (h : 0 ≤ q) : 0 ≤ rndHalfEven q := by
  have hf : 0 ≤ q.num.fdiv q.den :=
    Int.fdiv_nonneg (Rat.num_nonneg.mpr h) (le_of_lt (den_posZ q))
  unfold rndHalfEven
  split_ifs <;> omega

lemma rndHalfEven_le {q : ℚ} {B : ℤ} (h : q ≤ (B : ℚ)) : rndHalfEven q ≤ B := by
  have hfle : ((q.num.fdiv q.den : ℤ) : ℚ) ≤ q := fdiv_cast_le q
  have hfB : q.num.fdiv q.den ≤ B := by exact_mod_cast hfle.trans h
  have hd := den_posZ q
  unfold rndHalfEven
  split_ifs with h1 h2 h3
  · exact hfB
  · have hr : 0 < q.num.fmod q.den := by omega
    have hlt : ((q.num.fdiv q.den : ℤ) : ℚ) < q := fdiv_cast_lt q hr
    have : q.num.fdiv q.den < B := by exact_mod_cast hlt.trans_le h
    omega
  · exact hfB
  · have hr : 0 < q.num.fmod q.den := by omega
    have hlt : ((q.num.fdiv q.den : ℤ) : ℚ) < q := fdiv_cast_lt q hr
    have : q.num.fdiv q.den < B := by exact_mod_cast hlt.trans_le h
    omega

lemma rat_lt_div_iff (q : ℚ) (a b : ℤ) (hb : (0 : ℤ) < b) :
    q < (a : ℚ) / (b : ℚ) ↔ q.num * b < a * (q.den : ℤ) := by
  have hbq : (0 : ℚ) < (b : ℚ) := by exact_mod_cast hb
  have hdq : (0 : ℚ) < ((q.den : ℤ) : ℚ) := by exact_mod_cast den_posZ q
  rw [lt_div_iff₀ hbq]
  constructor
  · intro h
    have h2 : (q.num : ℚ) * (b : ℚ) < (a : ℚ) * ((q.den : ℤ) : ℚ) := by
      have hq : q = (q.num : ℚ) / ((q.den : ℤ) : ℚ) := by
        push_cast
        exact (Rat.num_div_den q).symm
      rw [hq] at h
      calc (q.num : ℚ) * (b : ℚ)
          = (q.num : ℚ) / ((q.den : ℤ) : ℚ) * (b : ℚ) * ((q.den : ℤ) : ℚ) := by
            field_simp
        _ < (a : ℚ) * ((q.den : ℤ) : ℚ) := by
            exact mul_lt_mul_of_pos_right h hdq
    exact_mod_cast h2
  · intro h
    have h2 : (q.num : ℚ) * (b : ℚ) < (a : ℚ) * ((q.den : ℤ) : ℚ) := by
      exact_mod_cast h
    have hq : q = (q.num : ℚ) / ((q.den : ℤ) : ℚ) := by
      push_cast
      exact (Rat.num_div_den q).symm
    rw [hq]
    rw [div_mul_eq_mul_div, div_lt_iff₀ hdq]
    linarith

lemma div_lt_rat_iff (q : ℚ) (a b : ℤ) (hb : (0 : ℤ) < b) :
    (a : ℚ) / (b : ℚ) < q ↔ a * (q.den : ℤ) < q.num * b := by
  have hbq : (0 : ℚ) < (b : ℚ) := by exact_mod_cast hb
  have hdq : (0 : ℚ) < ((q.den : ℤ) : ℚ) := by exact_mod_cast den_posZ q
  rw [div_lt_iff₀ hbq]
  have hq : q = (q.num : ℚ) / ((q.den : ℤ) : ℚ) := by
    push_cast
    exact (Rat.num_div_den q).symm
  constructor
  · intro h
    have h2 : (a : ℚ) * ((q.den : ℤ) : ℚ) < (q.num : ℚ) * (b : ℚ) := by
      rw [hq] at h
      calc (a : ℚ) * ((q.den : ℤ) : ℚ)
          < (q.num : ℚ) / ((q.den : ℤ) : ℚ) * (b : ℚ) * ((q.den : ℤ) : ℚ) := by
            exact mul_lt_mul_of_pos_right h hdq
        _ = (q.num : ℚ) * (b : ℚ) := by field_simp
    exact_mod_cast h2
  · intro h
    have h2 : (a : ℚ) * ((q.den : ℤ) : ℚ) < (q.num : ℚ) * (b : ℚ) := by
      exact_mod_cast h
    rw [hq, div_mul_eq_mul_div, lt_div_iff₀ hdq]
    linarith

/-- Decomposition of a rational into its floor-division part and remainder. -/
lemma q_eq_fdiv_add (q : ℚ) :
    q = ((q.num.fdiv q.den : ℤ) : ℚ) + ((q.num.fmod q.den : ℤ) : ℚ) / (q.den : ℚ) := by
  have hd : (0 : ℚ) < (q.den : ℚ) := by exact_mod_cast q.den_pos
  have hid : (q.den : ℚ) * ((q.num.fdiv q.den : ℤ) : ℚ)
      + ((q.num.fmod q.den : ℤ) : ℚ) = (q.num : ℚ) := by
    have h0 := congrArg (fun z : ℤ => (z : ℚ)) (fdiv_fmod_eq q)
    push_cast at h0
    exact h0
  have hqd : q * (q.den : ℚ) = (q.num : ℚ) := by
    have h2 := congrArg (fun x : ℚ => x * (q.den : ℚ)) (Rat.num_div_den q).symm
    simp only [div_mul_cancel₀ _ (ne_of_gt hd)] at h2
    exact h2
  field_simp
  linear_combination -hid

/-- Half-even rounding agrees with the unique nearest integer when the input is
not a tie. -/
lemma rndHalfEven_eq_of (m : ℤ) (q : ℚ) (h1 : (m : ℚ) - 1/2 < q)
    (h2 : q < (m : ℚ) + 1/2) : rndHalfEven q = m := by
  have hd : (0 : ℚ) < (q.den : ℚ) := by exact_mod_cast q.den_pos
  have hr0 : (0 : ℚ) ≤ ((q.num.fmod q.den : ℤ) : ℚ) := by
    exact_mod_cast fmod_nonneg_q q
  have hrd : ((q.num.fmod q.den : ℤ) : ℚ) < (q.den : ℚ) := by
    exact_mod_cast fmod_lt_q q
  have E := q_eq_fdiv_add q
  have hlow : ((q.num.fdiv q.den : ℤ) : ℚ) ≤ q := by
    have : (0 : ℚ) ≤ ((q.num.fmod q.den : ℤ) : ℚ) / (q.den : ℚ) := by positivity
    linarith
  have hhigh : q < ((q.num.fdiv q.den : ℤ) : ℚ) + 1 := by
    have : ((q.num.fmod q.den : ℤ) : ℚ) / (q.den : ℚ) < 1 := by
      rw [div_lt_one hd]
      exact hrd
    linarith
  unfold rndHalfEven
  split_ifs with b1 b2 b3
  · -- remainder strictly below half: rounds down to fdiv
    have hb : (2 : ℚ) * ((q.num.fmod q.den : ℤ) : ℚ) < (q.den : ℚ) := by
      exact_mod_cast b1
    have hq2 : q < ((q.num.fdiv q.den : ℤ) : ℚ) + 1/2 := by
      have : ((q.num.fmod q.den : ℤ) : ℚ) / (q.den : ℚ) < 1/2 := by
        rw [div_lt_iff₀ hd]
        linarith
      linarith
    have i1 : q.num.fdiv q.den < m + 1 := by
      exact_mod_cast show ((q.num.fdiv q.den : ℤ) : ℚ) < ((m + 1 : ℤ) : ℚ) by
        push_cast
        linarith
    have i2 : m < q.num.fdiv q.den + 1 := by
      exact_mod_cast show ((m : ℤ) : ℚ) < ((q.num.fdiv q.den + 1 : ℤ) : ℚ) by
        push_cast
        linarith
    omega
  · -- remainder strictly above half: rounds up to fdiv + 1
    have hb : (q.den : ℚ) < (2 : ℚ) * ((q.num.fmod q.den : ℤ) : ℚ) := by
      exact_mod_cast b2
    have hq2 : ((q.num.fdiv q.den : ℤ) : ℚ) + 1/2 < q := by
      have : (1 : ℚ)/2 < ((q.num.fmod q.den : ℤ) : ℚ) / (q.den : ℚ) := by
        rw [lt_div_iff₀ hd]
        linarith
      linarith
    have i1 : q.num.fdiv q.den < m := by
      exact_mod_cast show ((q.num.fdiv q.den : ℤ) : ℚ) < ((m : ℤ) : ℚ) by
        linarith
    have i2 : m < q.num.fdiv q.den + 2 := by
      exact_mod_cast show ((m : ℤ) : ℚ) < ((q.num.fdiv q.den + 2 : ℤ) : ℚ) by
        push_cast
        linarith
    omega
  all_goals {
    -- exact tie: excluded by the strict hypotheses
    exfalso
    have hb : (q.den : ℚ) = (2 : ℚ) * ((q.num.fmod q.den : ℤ) : ℚ) := by
      have hx : ¬ (2 * q.num.fmod q.den < (q.den : ℤ)) := b1
      have hy : ¬ ((q.den : ℤ) < 2 * q.num.fmod q.den) := by assumption
      exact_mod_cast show ((q.den : ℤ) : ℚ) = ((2 * q.num.fmod q.den : ℤ) : ℚ) by
        exact_mod_cast congrArg (fun z : ℤ => (z : ℚ)) (by omega : (q.den : ℤ) = 2 * q.num.fmod q.den)
    have hq2 : q = ((q.num.fdiv q.den : ℤ) : ℚ) + 1/2 := by
      have : ((q.num.fmod q.den : ℤ) : ℚ) / (q.den : ℚ) = 1/2 := by
        rw [div_eq_iff (ne_of_gt hd)]
        linarith
      linarith
    have i1 : q.num.fdiv q.den < m := by
      exact_mod_cast show ((q.num.fdiv q.den : ℤ) : ℚ) < ((m : ℤ) : ℚ) by
        linarith
    have i2 : m < q.num.fdiv q.den + 1 := by
      exact_mod_cast show ((m : ℤ) : ℚ) < ((q.num.fdiv q.den + 1 : ℤ) : ℚ) by
        push_cast
        linarith
    omega
  }

/-- Evaluation rule for `round3` away from ties. -/
lemma round3_eq (q : ℚ) (m : ℤ) (h1 : (m : ℚ) - 1/2 < q * 1000)
    (h2 : q * 1000 < (m : ℚ) + 1/2) : round3 q = (m : ℚ) / 1000 := by
  unfold round3
  rw [rndHalfEven_eq_of m _ h1 h2]

lemma round3_int_div (m : ℤ) : round3 ((m : ℚ) / 1000) = (m : ℚ) / 1000 := by
  unfold round3
  rw [div_mul_cancel₀ (m : ℚ) (by norm_num : (1000 : ℚ) ≠ 0), rndHalfEven_intCast]

lemma round3_zero : round3 0 = 0 := by
  have := round3_int_div 0
  simpa using this

lemma round3_one : round3 1 = 1 := by
  have := round3_int_div 1000
  norm_num at this
  simpa using this

lemma round3_nonneg {q : ℚ} (h : 0 ≤ q) : 0 ≤ round3 q := by
  unfold round3
  have h1 : (0 : ℤ) ≤ rndHalfEven (q * 1000) := rndHalfEven_nonneg (by positivity)
  positivity

lemma round3_le_one {q : ℚ} (h : q ≤ 1) : round3 q ≤ 1 := by
  unfold round3
  have h1 : rndHalfEven (q * 1000) ≤ 1000 := by
    apply rndHalfEven_le
    push_cast
    linarith
  rw [div_le_one (by norm_num : (0 : ℚ) < 1000)]
  exact_mod_cast h1

/-! ## Normalization helper lemmas -/

lemma round3_lint_formula (n : ℕ) : round3 (lint_formula n) = lint_formula n := by
  have hk : (min n 20) ≤ 20 := min_le_right _ _
  have hkq : ((min n 20 : ℕ) : ℚ) ≤ 20 := by exact_mod_cast hk
  have hnn : (0 : ℚ) ≤ 1 - ((min n 20 : ℕ) : ℚ) / 20 := by linarith
  have hrw : lint_formula n = ((50 * (20 - ((min n 20 : ℕ) : ℤ)) : ℤ) : ℚ) / 1000 := by
    unfold lint_formula
    rw [max_eq_right hnn]
    push_cast
    ring
  rw [hrw, round3_int_div]

lemma round3_dep_formula (n : ℕ) : round3 (dep_formula n) = dep_formula n := by
  have hk : (min n 10) ≤ 10 := min_le_right _ _
  have hkq : ((min n 10 : ℕ) : ℚ) ≤ 10 := by exact_mod_cast hk
  have hnn : (0 : ℚ) ≤ 1 - ((min n 10 : ℕ) : ℚ) / 10 := by linarith
  have hrw : dep_formula n = ((100 * (10 - ((min n 10 : ℕ) : ℤ)) : ℤ) : ℚ) / 1000 := by
    unfold dep_formula
    rw [max_eq_right hnn]
    push_cast
    ring
  rw [hrw, round3_int_div]

lemma junitStep_passed_le (acc : JUnitCounts) (ts : Suite) :
    (junitStep acc ts).passed ≤ (junitStep acc ts).total := by
  simp only [junitStep]
  omega

lemma junitFold_passed_le (suites : List Suite) (acc : JUnitCounts)
    (h : acc.passed ≤ acc.total) :
    (suites.foldl junitStep acc).passed ≤ (suites.foldl junitStep acc).total := by
  induction suites generalizing acc with
  | nil => exact h
  | cons s rest ih =>
    simp only [List.foldl_cons]
    exact ih (junitStep acc s) (junitStep_passed_le acc s)

/-- `junit_results` never reports more passed tests than total tests, for any
parsed suite list. -/
lemma junit_passed_le_total (suites : List Suite) :
    (junit_results suites).passed ≤ (junit_results suites).total :=
  junitFold_passed_le suites ⟨0, 0, 0, 0⟩ (le_refl 0)

/-! ## Claim theorems -/

/-- C1, counterexample: the claim says `aggregate_score` equals the arithmetic
mean of the non-null sub-scores, but the code stores `round(mean, 3)`.  With
sub-scores `0.0`, `1.0`, `1.0` the mean is `2/3` while the stored aggregate is
`0.667`. -/
theorem C1_aggregate_counterexample :
    aggregate_score 0 (some 1) (some 1) none none = 667/1000 ∧
    (667/1000 : ℚ) ≠ (0 + 1 + 1)/3 := by
  constructor
  · have h := round3_eq ((2:ℚ)/3) 667 (by norm_num) (by norm_num)
    simp only [aggregate_score, subsList, List.filterMap]
    rw [if_neg (by simp)]
    norm_num [h]
  · norm_num

/-- C1, amended: for every task, `aggregate_score` equals the arithmetic mean
of the non-null sub-scores rounded to three decimals (ties to even); the
correctness sub-score is always non-null, so the sub-score list is never empty
and the code's all-null default of `0.0` is unreachable. -/
theorem C1_aggregate_amended (c : ℚ) (cc l s d : Option ℚ) :
    aggregate_score c cc l s d =
      round3 ((c + presentScoreSum cc l s d) /
        ((1 + presentScoreCount cc l s d : ℕ) : ℚ)) ∧
    subsList c cc l s d ≠ [] := by
  constructor
  · rcases cc with _ | a <;> rcases l with _ | b <;> rcases s with _ | e <;>
      rcases d with _ | f <;>
        simp only [aggregate_score, subsList, presentScoreSum, presentScoreCount,
          List.filterMap, Option.getD, Option.isSome, if_true, if_false] <;>
      rw [if_neg (by simp)] <;> norm_num <;>
        (try (congr 1; push_cast; ring))
  · simp [subsList, List.filterMap]

/-- C2, counterexample: for average complexity `23/3` (e.g. blocks `7, 8, 8`),
the claimed normalized score is `1 - (23/3 - 5)/10 = 11/15`, but the adapter
stores `round(11/15, 3) = 0.733 ≠ 11/15`. -/
theorem C2_normalizer_counterexample :
    (radon_complexity_score true [[7, 8, 8]]).2 = some (733/1000) ∧
    1 - ((23 : ℚ)/3 - 5)/10 = 11/15 ∧ (733/1000 : ℚ) ≠ 11/15 := by
  refine ⟨?_, by norm_num, by norm_num⟩
  have havg : ((7 : ℚ) + (8 + (8 + 0))) / 3 = 23/3 := by norm_num
  have hcc : cc_formula (23/3) = 11/15 := by
    rw [cc_formula, if_neg (by norm_num), if_neg (by norm_num)]
    norm_num
  have hr := round3_eq ((11:ℚ)/15) 733 (by norm_num) (by norm_num)
  simp only [radon_complexity_score, List.flatten]
  norm_num [havg, hcc]
  rw [hr]
  simp

/-- C2, amended: the normalizers compute the fixed formulas up to the final
three-decimal rounding, which is the identity everywhere except in the
interpolation branch of the complexity score: complexity normalizes to exactly
`1.0` for `avg ≤ 5`, exactly `0.0` for `avg ≥ 15`, and to
`round(1 - (avg-5)/10, 3)` in between; lint and security scores equal
`max(0, 1 - min(count,20)/20)` exactly and the dependency score equals
`max(0, 1 - min(count,10)/10)` exactly. -/
theorem C2_normalizer_amended (avg : ℚ) (n : ℕ) :
    (avg ≤ 5 → round3 (cc_formula avg) = 1) ∧
    (15 ≤ avg → round3 (cc_formula avg) = 0) ∧
    (5 < avg → avg < 15 → round3 (cc_formula avg) = round3 (1 - (avg - 5) / 10)) ∧
    (flake8_issues true n).2 = some (lint_formula n) ∧
    bandit_issues (.output (some n)) = .ok (some n, some (lint_formula n)) ∧
    pip_audit true (.output (some n)) = .ok (some n, some (dep_formula n)) := by
  refine ⟨?_, ?_, ?_, ?_, ?_, ?_⟩
  · intro h
    rw [cc_formula, if_pos h, round3_one]
  · intro h
    have h5 : ¬ avg ≤ 5 := by linarith
    rw [cc_formula, if_neg h5, if_pos h, round3_zero]
  · intro h1 h2
    have h5 : ¬ avg ≤ 5 := by linarith
    have h15 : ¬ 15 ≤ avg := by linarith
    rw [cc_formula, if_neg h5, if_neg h15]
  · simp [flake8_issues, round3_lint_formula]
  · simp [bandit_issues, round3_lint_formula]
  · simp [pip_audit, round3_dep_formula]

/-- C2, witness: the amended normalizer claim instantiated at concrete
inputs `avg = 4, 20, 10` and `n = 3`. -/
theorem C2_normalizer_witness :
    round3 (cc_formula 4) = 1 ∧ round3 (cc_formula 20) = 0 ∧
    round3 (cc_formula 10) = round3 (1 - ((10 : ℚ) - 5) / 10) ∧
    (flake8_issues true 3).2 = some (lint_formula 3) :=
  ⟨(C2_normalizer_amended 4 3).1 (by norm_num),
   (C2_normalizer_amended 20 3).2.1 (by norm_num),
   (C2_normalizer_amended 10 3).2.2.1 (by norm_num) (by norm_num),
   (C2_normalizer_amended 4 3).2.2.2.1⟩

/-- C3, counterexample: the claim says the correctness score equals
`passed/total` exactly when `total > 0`, but the code stores
`round(passed/total, 3)`; at `passed = 1, total = 3` it stores
`0.333 ≠ 1/3`. -/
theorem C3_correctness_counterexample :
    correctness_score 1 3 = 333/1000 ∧ (333/1000 : ℚ) ≠ 1/3 := by
  constructor
  · have h := round3_eq ((1:ℚ)/3) 333 (by norm_num) (by norm_num)
    simp only [correctness_score]
    norm_num [h]
  · norm_num

/-- C3, amended: for every test-count pair with `passed ≤ total` (an invariant
`junit_results` guarantees, see `junit_passed_le_total`), the correctness score
lies in `[0,1]`, equals `round(passed/total, 3)` when `total > 0`, and equals
`0.0` when `total = 0`. -/
theorem C3_correctness_amended (passed total : ℕ) (h : passed ≤ total) :
    0 ≤ correctness_score passed total ∧ correctness_score passed total ≤ 1 ∧
    (total ≠ 0 → correctness_score passed total = round3 ((passed : ℚ) / (total : ℚ))) ∧
    (total = 0 → correctness_score passed total = 0) := by
  rcases Nat.eq_zero_or_pos total with h0 | hpos
  · subst h0
    simp [correctness_score]
  · have hne : total ≠ 0 := Nat.pos_iff_ne_zero.mp hpos
    have htq : (0 : ℚ) < (total : ℚ) := by exact_mod_cast hpos
    have hq0 : (0 : ℚ) ≤ (passed : ℚ) / (total : ℚ) := by positivity
    have hq1 : (passed : ℚ) / (total : ℚ) ≤ 1 := by
      rw [div_le_one htq]
      exact_mod_cast h
    refine ⟨?_, ?_, fun _ => by rw [correctness_score, if_neg hne], fun hc => absurd hc hne⟩
    · rw [correctness_score, if_neg hne]
      exact round3_nonneg hq0
    · rw [correctness_score, if_neg hne]
      exact round3_le_one hq1

/-- C3, witness: the amended correctness claim instantiated at
`passed = 2, total = 3`. -/
theorem C3_correctness_witness :
    2 ≤ 3 ∧
      (0 ≤ correctness_score 2 3 ∧ correctness_score 2 3 ≤ 1 ∧
        (3 ≠ 0 → correctness_score 2 3 = round3 ((2 : ℚ) / 3)) ∧
        (3 = 0 → correctness_score 2 3 = 0)) := by
  have h23 : (2 : ℕ) ≤ 3 := by norm_num
  refine ⟨h23, ?_⟩
  have h := C3_correctness_amended 2 3 h23
  simpa using h

/-- C4: the missing-data policy is asymmetric — a correctness result with
`total = 0` scores `0.0` and is always a member of the sub-score list entering
the mean, while unavailable checkers are dropped from that list; with all four
optional checkers unavailable the list is exactly `[correctness]`, and the
aggregate at correctness `0.0` is `mean([0.0]) = 0.0`. -/
theorem C4_missing_data_asymmetry (p : ℕ) (c : ℚ) (cc l s d : Option ℚ) :
    correctness_score p 0 = 0 ∧
    c ∈ subsList c cc l s d ∧
    subsList c none none none none = [c] ∧
    aggregate_score (correctness_score p 0) none none none none = 0 := by
  refine ⟨by simp [correctness_score], ?_, by simp [subsList, List.filterMap], ?_⟩
  · simp [subsList, List.filterMap]
  · simp only [correctness_score, if_pos rfl]
    simp only [aggregate_score, subsList, List.filterMap]
    rw [if_neg (by simp)]
    norm_num [round3_zero]

/-- C5: evaluated at the failing input.  Because `if mf.exists()` and
`tasks.append(meta)` sit outside `if p.is_dir()`, a tasks root holding
directory `a` and plain file `b` yields TWO tasks (both the metadata of `a`),
and a root whose first sorted entry is a non-directory raises `NameError`;
the malformed-manifest fallback and lexicographic ordering do behave as
claimed. -/
theorem C5_discovery_bug_eval :
    discover_tasks [⟨"a", true, .absentFile⟩, ⟨"b", false, .absentFile⟩] =
      .ok [⟨"a", none⟩, ⟨"a", none⟩] ∧
    discover_tasks [⟨"b", false, .absentFile⟩] = .error .nameError ∧
    discover_tasks [⟨"a", true, .malformed⟩] = .ok [⟨"a", none⟩] ∧
    discover_tasks [⟨"b", true, .absentFile⟩, ⟨"a", true, .parsed (some "T")⟩] =
      .ok [⟨"a", some "T"⟩, ⟨"b", none⟩] :=
  ⟨rfl, rfl, rfl, rfl⟩

/-- C6: evaluated at the failing input.  A missing `bandit` or `pip-audit`
binary makes `subprocess.run` raise `FileNotFoundError`, which no adapter
catches, and the exception propagates out of `evaluate_task`; parse failures
and missing optional imports do degrade to the unavailable sentinel as
claimed. -/
theorem C6_missing_binary_raises :
    bandit_issues .missing = .error .fileNotFound ∧
    pip_audit true .missing = .error .fileNotFound ∧
    bandit_issues (.output none) = .ok (none, none) ∧
    pip_audit true (.output none) = .ok (none, none) ∧
    radon_complexity_score false [[3]] = (none, none) ∧
    flake8_issues false 0 = (none, none) ∧
    evaluate_task ⟨"t", none⟩
        { envToolsSilent with banditTool := .missing } = .error .fileNotFound :=
  ⟨rfl, rfl, rfl, rfl, rfl, rfl, rfl⟩

/-- C7, counterexample: the dependency checker also returns the unavailable
sentinel when the manifest exists but the `pip-audit` output cannot be parsed,
so unavailability is not equivalent to a missing manifest. -/
theorem C7_pip_audit_counterexample :
    pip_audit true (.output none) = .ok (none, none) ∧ (true ≠ false) :=
  ⟨rfl, by simp⟩

/-- C7, amended: the dependency checker returns unavailable when the task has
no dependency manifest, and also when the audit output cannot be parsed; a
manifest auditing to zero vulnerabilities yields the valid raw value `0` with
normalized score `1.0`, and generally a parsed count `n` yields
`round(max(0, 1 - min(n,10)/10), 3)`. -/
theorem C7_pip_audit_amended (tool : ToolOutcome) (n : ℕ) :
    pip_audit false tool = .ok (none, none) ∧
    pip_audit true (.output none) = .ok (none, none) ∧
    pip_audit true (.output (some 0)) = .ok (some 0, some 1) ∧
    pip_audit true (.output (some n)) = .ok (some n, some (round3 (dep_formula n))) := by
  refine ⟨rfl, rfl, ?_, rfl⟩
  have h0 : dep_formula 0 = 1 := by
    simp [dep_formula]
  simp [pip_audit, h0, round3_one]

/-- C8: every mean over tasks or weights is guarded against a zero
denominator — a zero-task run yields `mean_score = 0.0` with `num_tasks = 0`,
and `weighted_aggregate` returns `0.0` whenever the accumulated weight
denominator is zero. -/
theorem C8_zero_denominator_guards :
    mean_score [] = 0 ∧ run_summary [] = (0, 0) ∧
    (∀ (row : String → Option ℚ) (weights : List (String × ℚ)) (missing : String),
      (accumWeights row weights missing).2 = 0 →
        weighted_aggregate row weights missing = 0) := by
  refine ⟨?_, ?_, ?_⟩
  · simp [mean_score, round3_zero]
  · simp [run_summary, mean_score, round3_zero]
  · intro row weights missing h
    simp only [weighted_aggregate]
    rw [if_pos h]

/-- C8, witness: a weight table whose only metric is absent from the row under
the skip policy accumulates denominator `0`, and the weighted aggregate is
`0`. -/
theorem C8_zero_denominator_witness :
    (accumWeights (fun _ => none) [("correctness", 1)] "skip").2 = 0 ∧
    weighted_aggregate (fun _ => none) [("correctness", 1)] "skip" = 0 := by
  have h : (accumWeights (fun _ => none) [("correctness", 1)] "skip").2 = 0 := rfl
  exact ⟨h, C8_zero_denominator_guards.2.2 (fun _ => none) [("correctness", 1)] "skip" h⟩

/-- C9: evaluated at the failing input.  `evaluate_task` stores the whole task
metadata dict under the result's `"id"` key (`res = {"id": task, ...}`), not
the task's id string; the title defaults to the id as claimed and honours
manifest titles. -/
theorem C9_id_field_holds_metadata_dict :
    (evaluate_task ⟨"task01", none⟩ envToolsSilent).map (fun r => (r.idField, r.title)) =
      .ok (.ofMeta ⟨"task01", none⟩, "task01") ∧
    IdVal.ofMeta ⟨"task01", none⟩ ≠ IdVal.ofStr "task01" ∧
    (evaluate_task ⟨"task01", some "Title"⟩ envToolsSilent).map (fun r => r.title) =
      .ok "Title" := by
  refine ⟨rfl, ?_, rfl⟩
  intro h
  exact absurd h (by simp)

/-- C10: for identical checker raw outputs, the v1 runner's `evaluate_task`
computes the same `aggregate_score` as the base runner's — the mutation-testing
score v1 records never enters the aggregate. -/
theorem C10_mutation_excluded_from_aggregate (task : TaskMeta) (env : CheckerEnv)
    (mutmutAvailable : Bool) (mutExit : ℤ) (survived killed tmo suspicious : ℕ) :
    (evaluate_task_v1 task env mutmutAvailable mutExit survived killed tmo suspicious).map
        (fun r => r.aggregate) =
      (evaluate_task task env).map (fun r => r.aggregate) := by
  unfold evaluate_task_v1 evaluate_task
  rcases bandit_issues env.banditTool with er | sp
  · rfl
  · rcases pip_audit env.depManifestExists env.pipTool with er2 | dp
    · rfl
    · rfl

end VibeBench
